import Mathlib

/-!
Shallow embedding of `run_system.py`, the process-supervisor script of this
repository.  Child OS processes are modelled by their observable behaviour
(`ProcBeh`): the poll tick at which `poll()` first reports an exit code, the
code itself, and whether a terminate/kill request raises.  Each supervisor
function is translated to a Lean function that returns the list of observable
actions it performs (`Event`) together with its result; `KeyboardInterrupt`
and spawn failures travel in an `Except` layer exactly where the Python
exceptions travel.  The monitoring loop takes a fuel argument: running out of
fuel models the loop still running, never a result.
-/

set_option maxHeartbeats 1000000

/-- Observable action of the orchestrator: spawning a node's script,
sleeping (milliseconds), polling a service or a pending client, sending a
terminate or kill request, or swallowing (and logging) an error raised by a
terminate/kill request. -/
inductive Event where
  | spawnEv (name script : String)
  | sleep (ms : Nat)
  | pollSvc (name : String)
  | pollClient (name : String)
  | term (name : String)
  | swallowTermErr (name : String)
  | kill (name : String)
  | swallowKillErr (name : String)
  deriving DecidableEq, Repr

/-- Environment model of one child OS process, as the supervisor can observe
it through `subprocess.Popen`: `exitAt = some k` means every `poll()` made at
monitor tick `k` or later reports exit code `code` (the OS guarantee that an
exit code, once set, never changes is built in); `exitAt = none` means the
process never exits by itself.  `termErr` / `killErr` say whether a
`terminate()` / `kill()` call on this process raises. -/
structure ProcBeh where
  exitAt : Option Nat
  code : Int
  termErr : Bool
  killErr : Bool
  deriving DecidableEq, Repr

/-- Result of `proc.poll()` at monitor tick `t` (ticks start at 1; tick 0 is
before any poll happens, where nothing has been observed). -/
def ProcBeh.poll (p : ProcBeh) (t : Nat) : Option Int :=
  match p.exitAt with
  | none => none
  | some k => if k ≤ t ∧ 1 ≤ t then some p.code else none

/-- The `(name, proc)` pair that `start_node` returns in `run_system.py`. -/
structure ProcHandle where
  name : String
  beh : ProcBeh
  deriving DecidableEq, Repr

/-- Result of `wait_for_clients` in `run_system.py`: the loop either falls
through because every client exited, or returns early because a service
handle polled non-None (carrying that service's name and exit code). -/
inductive CompletionReason where
  | clientsFinished
  | serviceFailed (name : String) (code : Int)
  deriving DecidableEq, Repr

/-- The two exceptions that can cross function boundaries in
`run_system.py`: an OS error from `subprocess.Popen` (carrying the node name
and the OS error text) and `KeyboardInterrupt` raised by `signal_handler`. -/
inductive RunExc where
  | spawnFailure (name err : String)
  | keyboardInterrupt
  deriving DecidableEq, Repr

/-- The `signal_handler` of `run_system.py` converts SIGINT into a
`KeyboardInterrupt` exception. -/
def signal_handler : RunExc := RunExc.keyboardInterrupt

/-- The service-check loop body of `wait_for_clients`
(`for svc_name, svc_proc in service_procs: if svc_proc.poll() is not None:
return`): polls the services in list order, stopping at the first one that
reports an exit; returns the poll events performed and the name/code of the
first exited service, if any. -/
def pollServices (t : Nat) : List ProcHandle → List Event × Option (String × Int)
  | [] => ([], none)
  | h :: rest =>
    match ProcBeh.poll h.beh t with
    | some c => ([Event.pollSvc h.name], some (h.name, c))
    | none => (Event.pollSvc h.name :: (pollServices t rest).1, (pollServices t rest).2)

/-- The `while remaining:` loop of `wait_for_clients`.  Arguments: fuel bound
on the number of iterations, the tick `t` the next poll would happen at, and
the `remaining` dict (as an ordered list; node names are unique in the
configuration).  Each iteration sleeps 1 s, polls every service (returning
`serviceFailed` on the first exited one), then polls every still-pending
client and drops the finished ones.  `intrTick = some t` means SIGINT arrives
during the sleep of tick `t`, raising `KeyboardInterrupt` there.  Result
`none` means the fuel ran out with the loop still running. -/
def monitorRun (services : List ProcHandle) (intrTick : Option Nat) :
    Nat → Nat → List ProcHandle → List Event × Option (Except RunExc CompletionReason)
  | 0, _, remaining =>
    if remaining.isEmpty then ([], some (Except.ok CompletionReason.clientsFinished))
    else ([], none)
  | fuel + 1, t, remaining =>
    if remaining.isEmpty then ([], some (Except.ok CompletionReason.clientsFinished))
    else if intrTick = some t then
      ([Event.sleep 1000], some (Except.error RunExc.keyboardInterrupt))
    else
      match (pollServices t services).2 with
      | some nc =>
          (Event.sleep 1000 :: (pollServices t services).1,
           some (Except.ok (CompletionReason.serviceFailed nc.1 nc.2)))
      | none =>
          (Event.sleep 1000 ::
             ((pollServices t services).1
               ++ remaining.map (fun h => Event.pollClient h.name)
               ++ (monitorRun services intrTick fuel (t + 1)
                     (remaining.filter (fun h => (ProcBeh.poll h.beh t).isNone))).1),
           (monitorRun services intrTick fuel (t + 1)
               (remaining.filter (fun h => (ProcBeh.poll h.beh t).isNone))).2)

/-- `wait_for_clients(client_procs, service_procs)` from `run_system.py`:
runs the monitor loop starting at tick 1 with all clients pending. -/
def wait_for_clients (intrTick : Option Nat) (fuel : Nat)
    (client_procs service_procs : List ProcHandle) :
    List Event × Option (Except RunExc CompletionReason) :=
  monitorRun service_procs intrTick fuel 1 client_procs

/-- When SIGINT arrives, in the phases of `main` that the `try:` block
covers: never, during the `time.sleep(0.5)` that follows the start of node
number `i` (0-based) of the service group, during the `time.sleep(3)`
warm-up, during the sleep after client number `i`, or during the monitor
sleep of tick `t`. -/
inductive InterruptPoint where
  | noIntr
  | duringServiceStart (i : Nat)
  | duringWarmup
  | duringClientStart (i : Nat)
  | duringMonitor (t : Nat)
  deriving DecidableEq, Repr

/-- One run's environment: what `subprocess.Popen` does for each
`(name, script)` (spawn failure with an OS error text, or a process with the
given behaviour), and when SIGINT arrives. -/
structure Scenario where
  spawn : String → String → Except String ProcBeh
  intr : InterruptPoint

/-- `start_node(node_name, script)` from `run_system.py`: one `Popen` call,
which either yields a handle or raises the spawn failure. -/
def start_node (scn : Scenario) (name script : String) :
    List Event × Except RunExc ProcHandle :=
  match scn.spawn name script with
  | Except.ok b => ([Event.spawnEv name script], Except.ok (ProcHandle.mk name b))
  | Except.error e => ([Event.spawnEv name script], Except.error (RunExc.spawnFailure name e))

/-- `start_group(group)` from `run_system.py`: starts the nodes in order,
appending each handle and sleeping 0.5 s after each start.  A spawn failure
propagates at once (no sleep, remaining nodes not started, the partial
handle list is discarded with the raised exception).  `intrAfter = some i`
means `KeyboardInterrupt` is raised during the sleep that follows node `i`;
the partial handle list is likewise discarded.  `i` is the index of the
first node of the remaining group. -/
def start_group (scn : Scenario) (intrAfter : Option Nat) :
    List (String × String) → Nat → List Event × Except RunExc (List ProcHandle)
  | [], _ => ([], Except.ok [])
  | p :: rest, i =>
    match (start_node scn p.1 p.2).2 with
    | Except.error ex => ((start_node scn p.1 p.2).1, Except.error ex)
    | Except.ok h =>
      if intrAfter = some i then
        ((start_node scn p.1 p.2).1 ++ [Event.sleep 500], Except.error RunExc.keyboardInterrupt)
      else
        ((start_node scn p.1 p.2).1 ++ [Event.sleep 500] ++ (start_group scn intrAfter rest (i + 1)).1,
         match (start_group scn intrAfter rest (i + 1)).2 with
         | Except.ok hs => Except.ok (h :: hs)
         | Except.error ex => Except.error ex)

/-- First `for` loop of `stop_processes`: `proc.terminate()` on every handle
in list order, inside `try: ... except Exception: logger.debug(...)`, so an
error is logged and swallowed and the loop continues. -/
def terminatePhase : List ProcHandle → List Event
  | [] => []
  | h :: rest =>
    (if h.beh.termErr then [Event.term h.name, Event.swallowTermErr h.name]
     else [Event.term h.name]) ++ terminatePhase rest

/-- Second `for` loop of `stop_processes`: `proc.kill()` on every handle in
list order, inside `try: ... except Exception: pass`. -/
def killPhase : List ProcHandle → List Event
  | [] => []
  | h :: rest =>
    (if h.beh.killErr then [Event.kill h.name, Event.swallowKillErr h.name]
     else [Event.kill h.name]) ++ killPhase rest

/-- `stop_processes(processes)` from `run_system.py`: terminate every handle,
sleep the 2 s grace period, then kill every handle.  Both per-handle calls
swallow errors, so the function itself never raises; its only observable is
its event trace. -/
def stop_processes (processes : List ProcHandle) : List Event :=
  terminatePhase processes ++ [Event.sleep 2000] ++ killPhase processes

/-- The `NODES` constant of `run_system.py`. -/
def NODES : List (String × String) :=
  [("Q1", "q1_node.py"), ("D", "d_node.py"),
   ("P11", "p1x_service.py"), ("P12", "p1x_service.py"), ("P13", "p1x_service.py"),
   ("Q21", "q2x_node.py"), ("Q22", "q2x_node.py"), ("Q23", "q2x_node.py"),
   ("P21", "p2x_service.py"), ("P22", "p2x_service.py"), ("P23", "p2x_service.py")]

/-- The `CLIENT_NODES` constant of `run_system.py`. -/
def CLIENT_NODES : List (String × String) :=
  [("K1", "client.py"), ("K2", "client.py")]

/-- Interrupt index for the service-group start, if the scenario's interrupt
falls in that phase. -/
def svcIntr : InterruptPoint → Option Nat
  | InterruptPoint.duringServiceStart i => some i
  | _ => none

/-- Interrupt index for the client-group start, if the scenario's interrupt
falls in that phase. -/
def cliIntr : InterruptPoint → Option Nat
  | InterruptPoint.duringClientStart i => some i
  | _ => none

/-- Interrupt tick for the monitor loop, if the scenario's interrupt falls in
that phase. -/
def monIntr : InterruptPoint → Option Nat
  | InterruptPoint.duringMonitor t => some t
  | _ => none

/-- Everything observable about one completed run of `main`: the event trace,
the exception that escapes `main` after the `finally` block (`some (n, e)` =
the spawn failure of node `n`; `KeyboardInterrupt` is caught by the
`except KeyboardInterrupt` clause, so it never escapes), and the two lists
`main`'s `finally` block passes to `stop_processes` — `clientProcs` first,
then `serviceProcs`, each `[]` when the corresponding local was never bound
(`'client_procs' in locals()` / `'service_procs' in locals()`). -/
structure MainResult where
  trace : List Event
  outcome : Option (String × String)
  clientProcs : List ProcHandle
  serviceProcs : List ProcHandle
  deriving DecidableEq, Repr

namespace RunSystem

/-- `main()` from `run_system.py`.  The `try:` block starts the service
group, sleeps the 3 s warm-up, starts the client group and runs the monitor;
`KeyboardInterrupt` from any of these is caught, a spawn failure is not; the
`finally:` block always runs `stop_processes` on the client list then on the
service list, with `[]` for a list whose local variable was never bound.
Returns `none` when the monitor is still running after `fuel` polls (the run
has not completed, so nothing is observable yet). -/
def main (scn : Scenario) (fuel : Nat) : Option MainResult :=
  match (start_group scn (svcIntr scn.intr) NODES 0).2 with
  | Except.error (RunExc.spawnFailure n e) =>
      some (MainResult.mk
        ((start_group scn (svcIntr scn.intr) NODES 0).1
          ++ stop_processes [] ++ stop_processes [])
        (some (n, e)) [] [])
  | Except.error RunExc.keyboardInterrupt =>
      some (MainResult.mk
        ((start_group scn (svcIntr scn.intr) NODES 0).1
          ++ stop_processes [] ++ stop_processes [])
        none [] [])
  | Except.ok service_procs =>
    if scn.intr = InterruptPoint.duringWarmup then
      some (MainResult.mk
        ((start_group scn (svcIntr scn.intr) NODES 0).1 ++ [Event.sleep 3000]
          ++ stop_processes [] ++ stop_processes service_procs)
        none [] service_procs)
    else
      match (start_group scn (cliIntr scn.intr) CLIENT_NODES 0).2 with
      | Except.error (RunExc.spawnFailure n e) =>
          some (MainResult.mk
            ((start_group scn (svcIntr scn.intr) NODES 0).1 ++ [Event.sleep 3000]
              ++ (start_group scn (cliIntr scn.intr) CLIENT_NODES 0).1
              ++ stop_processes [] ++ stop_processes service_procs)
            (some (n, e)) [] service_procs)
      | Except.error RunExc.keyboardInterrupt =>
          some (MainResult.mk
            ((start_group scn (svcIntr scn.intr) NODES 0).1 ++ [Event.sleep 3000]
              ++ (start_group scn (cliIntr scn.intr) CLIENT_NODES 0).1
              ++ stop_processes [] ++ stop_processes service_procs)
            none [] service_procs)
      | Except.ok client_procs =>
          match (wait_for_clients (monIntr scn.intr) fuel client_procs service_procs).2 with
          | none => none
          | some _ =>
              some (MainResult.mk
                ((start_group scn (svcIntr scn.intr) NODES 0).1 ++ [Event.sleep 3000]
                  ++ (start_group scn (cliIntr scn.intr) CLIENT_NODES 0).1
                  ++ (wait_for_clients (monIntr scn.intr) fuel client_procs service_procs).1
                  ++ stop_processes client_procs ++ stop_processes service_procs)
                none client_procs service_procs)

end RunSystem

/-- The supervisor's own process exit status: 0 unless an exception escaped
`main` (Python exits 1 on an uncaught exception). -/
def pyExit (r : MainResult) : Nat :=
  match r.outcome with
  | none => 0
  | some _ => 1

/-- Names carried by the `term` events of a trace, in order. -/
def termNamesOf (evs : List Event) : List String :=
  evs.filterMap (fun e => match e with | Event.term n => some n | _ => none)

/-- Names carried by the `kill` events of a trace, in order. -/
def killNamesOf (evs : List Event) : List String :=
  evs.filterMap (fun e => match e with | Event.kill n => some n | _ => none)

/-- Names carried by the swallowed-terminate-error events of a trace. -/
def swallowTermNamesOf (evs : List Event) : List String :=
  evs.filterMap (fun e => match e with | Event.swallowTermErr n => some n | _ => none)

/-- Names carried by the swallowed-kill-error events of a trace. -/
def swallowKillNamesOf (evs : List Event) : List String :=
  evs.filterMap (fun e => match e with | Event.swallowKillErr n => some n | _ => none)

/-- Events of a trace that are not part of an orderly shutdown: anything
other than a terminate/kill request, a swallowed-error log, or a sleep. -/
def nonShutdownEvents (evs : List Event) : List Event :=
  evs.filter (fun e => match e with
    | Event.term _ => false
    | Event.kill _ => false
    | Event.swallowTermErr _ => false
    | Event.swallowKillErr _ => false
    | Event.sleep _ => false
    | _ => true)

/-- The `remaining` dict of `wait_for_clients` as it stands after the poll of
tick `t` (tick 0 = before any poll): the clients whose `poll()` has not yet
returned an exit code. -/
def remainingAt (clients : List ProcHandle) (t : Nat) : List ProcHandle :=
  clients.filter (fun h => (ProcBeh.poll h.beh t).isNone)

/-- The last tick at which some client is first observed exited: an upper
bound on how long the monitor loop runs when every client exits.  0 for no
clients. -/
def lastTick : List ProcHandle → Nat
  | [] => 0
  | h :: rest => max (max 1 (h.beh.exitAt.getD 0)) (lastTick rest)

/-- The handles `start_group` produces for a group when no spawn fails (for
nodes whose spawn fails nothing is produced). -/
def startedHandles (scn : Scenario) : List (String × String) → List ProcHandle
  | [] => []
  | p :: rest =>
    match scn.spawn p.1 p.2 with
    | Except.ok b => ProcHandle.mk p.1 b :: startedHandles scn rest
    | Except.error _ => startedHandles scn rest

/-- The event trace of a fully successful, uninterrupted group start: spawn
then 0.5 s sleep, per node in order. -/
def startEvents : List (String × String) → List Event
  | [] => []
  | p :: rest => Event.spawnEv p.1 p.2 :: Event.sleep 500 :: startEvents rest

/-! ### Basic facts about `poll` -/

theorem poll_zero (p : ProcBeh) : p.poll 0 = none := by
  cases he : p.exitAt <;> simp [ProcBeh.poll, he]

theorem poll_some_one_le {p : ProcBeh} {t : Nat} {c : Int}
    (h : p.poll t = some c) : 1 ≤ t := by
  cases he : p.exitAt with
  | none => simp [ProcBeh.poll, he] at h
  | some k =>
    simp only [ProcBeh.poll, he] at h
    by_cases hc : k ≤ t ∧ 1 ≤ t
    · exact hc.2
    · rw [if_neg hc] at h; exact absurd h (by simp)

theorem poll_mono_some {p : ProcBeh} {t u : Nat} {c : Int}
    (htu : t ≤ u) (h : p.poll t = some c) : p.poll u = some c := by
  cases he : p.exitAt with
  | none => simp [ProcBeh.poll, he] at h
  | some k =>
    simp only [ProcBeh.poll, he] at h ⊢
    by_cases hc : k ≤ t ∧ 1 ≤ t
    · rw [if_pos hc] at h
      rw [if_pos ⟨le_trans hc.1 htu, le_trans hc.2 htu⟩]
      exact h
    · rw [if_neg hc] at h; exact absurd h (by simp)

theorem poll_none_of_le {p : ProcBeh} {t u : Nat}
    (htu : t ≤ u) (h : p.poll u = none) : p.poll t = none := by
  cases hc : p.poll t with
  | none => rfl
  | some c => rw [poll_mono_some htu hc] at h; exact absurd h (by simp)

/-! ### Facts about the two shutdown phases -/

theorem termNamesOf_append (a b : List Event) :
    termNamesOf (a ++ b) = termNamesOf a ++ termNamesOf b :=
  List.filterMap_append a b _

theorem killNamesOf_append (a b : List Event) :
    killNamesOf (a ++ b) = killNamesOf a ++ killNamesOf b :=
  List.filterMap_append a b _

theorem swallowTermNamesOf_append (a b : List Event) :
    swallowTermNamesOf (a ++ b) = swallowTermNamesOf a ++ swallowTermNamesOf b :=
  List.filterMap_append a b _

theorem swallowKillNamesOf_append (a b : List Event) :
    swallowKillNamesOf (a ++ b) = swallowKillNamesOf a ++ swallowKillNamesOf b :=
  List.filterMap_append a b _

theorem nonShutdownEvents_append (a b : List Event) :
    nonShutdownEvents (a ++ b) = nonShutdownEvents a ++ nonShutdownEvents b :=
  List.filter_append a b

theorem termNamesOf_terminatePhase (ps : List ProcHandle) :
    termNamesOf (terminatePhase ps) = ps.map (fun h => h.name) := by
  induction ps with
  | nil => rfl
  | cons h rest ih =>
    simp only [termNamesOf] at ih ⊢
    cases hb : h.beh.termErr <;>
      simp [terminatePhase, hb, List.filterMap_append, ih]

theorem killNamesOf_terminatePhase (ps : List ProcHandle) :
    killNamesOf (terminatePhase ps) = [] := by
  induction ps with
  | nil => rfl
  | cons h rest ih =>
    simp only [killNamesOf] at ih ⊢
    cases hb : h.beh.termErr <;>
      simp [terminatePhase, hb, List.filterMap_append, ih]

theorem termNamesOf_killPhase (ps : List ProcHandle) :
    termNamesOf (killPhase ps) = [] := by
  induction ps with
  | nil => rfl
  | cons h rest ih =>
    simp only [termNamesOf] at ih ⊢
    cases hb : h.beh.killErr <;>
      simp [killPhase, hb, List.filterMap_append, ih]

theorem killNamesOf_killPhase (ps : List ProcHandle) :
    killNamesOf (killPhase ps) = ps.map (fun h => h.name) := by
  induction ps with
  | nil => rfl
  | cons h rest ih =>
    simp only [killNamesOf] at ih ⊢
    cases hb : h.beh.killErr <;>
      simp [killPhase, hb, List.filterMap_append, ih]

theorem swallowTermNamesOf_terminatePhase (ps : List ProcHandle) :
    swallowTermNamesOf (terminatePhase ps)
      = (ps.filter (fun h => h.beh.termErr)).map (fun h => h.name) := by
  induction ps with
  | nil => rfl
  | cons h rest ih =>
    simp only [swallowTermNamesOf] at ih ⊢
    cases hb : h.beh.termErr <;>
      simp [terminatePhase, hb, List.filterMap_append, List.filter_cons, ih]

theorem swallowTermNamesOf_killPhase (ps : List ProcHandle) :
    swallowTermNamesOf (killPhase ps) = [] := by
  induction ps with
  | nil => rfl
  | cons h rest ih =>
    simp only [swallowTermNamesOf] at ih ⊢
    cases hb : h.beh.killErr <;>
      simp [killPhase, hb, List.filterMap_append, ih]

theorem swallowKillNamesOf_terminatePhase (ps : List ProcHandle) :
    swallowKillNamesOf (terminatePhase ps) = [] := by
  induction ps with
  | nil => rfl
  | cons h rest ih =>
    simp only [swallowKillNamesOf] at ih ⊢
    cases hb : h.beh.termErr <;>
      simp [terminatePhase, hb, List.filterMap_append, ih]

theorem swallowKillNamesOf_killPhase (ps : List ProcHandle) :
    swallowKillNamesOf (killPhase ps)
      = (ps.filter (fun h => h.beh.killErr)).map (fun h => h.name) := by
  induction ps with
  | nil => rfl
  | cons h rest ih =>
    simp only [swallowKillNamesOf] at ih ⊢
    cases hb : h.beh.killErr <;>
      simp [killPhase, hb, List.filterMap_append, List.filter_cons, ih]

theorem nonShutdownEvents_terminatePhase (ps : List ProcHandle) :
    nonShutdownEvents (terminatePhase ps) = [] := by
  induction ps with
  | nil => rfl
  | cons h rest ih =>
    simp only [nonShutdownEvents] at ih ⊢
    cases hb : h.beh.termErr <;>
      simp [terminatePhase, hb, List.filter_append, ih]

theorem nonShutdownEvents_killPhase (ps : List ProcHandle) :
    nonShutdownEvents (killPhase ps) = [] := by
  induction ps with
  | nil => rfl
  | cons h rest ih =>
    simp only [nonShutdownEvents] at ih ⊢
    cases hb : h.beh.killErr <;>
      simp [killPhase, hb, List.filter_append, ih]

theorem termNamesOf_stop_processes (ps : List ProcHandle) :
    termNamesOf (stop_processes ps) = ps.map (fun h => h.name) := by
  rw [stop_processes, termNamesOf_append, termNamesOf_append,
    termNamesOf_terminatePhase, termNamesOf_killPhase]
  simp [termNamesOf]

theorem killNamesOf_stop_processes (ps : List ProcHandle) :
    killNamesOf (stop_processes ps) = ps.map (fun h => h.name) := by
  rw [stop_processes, killNamesOf_append, killNamesOf_append,
    killNamesOf_terminatePhase, killNamesOf_killPhase]
  simp [killNamesOf]

theorem swallowTermNamesOf_stop_processes (ps : List ProcHandle) :
    swallowTermNamesOf (stop_processes ps)
      = (ps.filter (fun h => h.beh.termErr)).map (fun h => h.name) := by
  rw [stop_processes, swallowTermNamesOf_append, swallowTermNamesOf_append,
    swallowTermNamesOf_terminatePhase, swallowTermNamesOf_killPhase]
  simp [swallowTermNamesOf]

theorem swallowKillNamesOf_stop_processes (ps : List ProcHandle) :
    swallowKillNamesOf (stop_processes ps)
      = (ps.filter (fun h => h.beh.killErr)).map (fun h => h.name) := by
  rw [stop_processes, swallowKillNamesOf_append, swallowKillNamesOf_append,
    swallowKillNamesOf_terminatePhase, swallowKillNamesOf_killPhase]
  simp [swallowKillNamesOf]

theorem nonShutdownEvents_stop_processes (ps : List ProcHandle) :
    nonShutdownEvents (stop_processes ps) = [] := by
  rw [stop_processes, nonShutdownEvents_append, nonShutdownEvents_append,
    nonShutdownEvents_terminatePhase, nonShutdownEvents_killPhase]
  simp [nonShutdownEvents]

/-- C5: for every list of handles — empty, partially constructed, or holding
handles whose terminate/kill calls raise — `stop_processes` completes without
raising (its per-handle calls sit inside try/except, so the embedding is a
total function into a trace): it consists of the graceful phase, the 2 s
grace sleep, then the force phase; each phase issues its request to every
handle in list order regardless of the error flags; per-handle errors only
add a swallowed-log event and never drop a later handle from either phase. -/
theorem c5_stop_processes_total_two_phase (ps : List ProcHandle) :
    stop_processes ps = terminatePhase ps ++ [Event.sleep 2000] ++ killPhase ps
    ∧ termNamesOf (stop_processes ps) = ps.map (fun h => h.name)
    ∧ killNamesOf (stop_processes ps) = ps.map (fun h => h.name)
    ∧ swallowTermNamesOf (stop_processes ps)
        = (ps.filter (fun h => h.beh.termErr)).map (fun h => h.name)
    ∧ swallowKillNamesOf (stop_processes ps)
        = (ps.filter (fun h => h.beh.killErr)).map (fun h => h.name)
    ∧ termNamesOf (killPhase ps) = []
    ∧ killNamesOf (terminatePhase ps) = [] :=
  ⟨rfl, termNamesOf_stop_processes ps, killNamesOf_stop_processes ps,
   swallowTermNamesOf_stop_processes ps, swallowKillNamesOf_stop_processes ps,
   termNamesOf_killPhase ps, killNamesOf_terminatePhase ps⟩

/-- C7: `stop_processes` is idempotent — a second call on the same handle
list (whatever the handles' terminate/kill calls now do, e.g. because the
first call already terminated or killed them) again issues both phases to
every handle in order, emits nothing but terminate/kill requests, grace
sleeps and swallowed-error logs (the logged no-ops), and cannot fail the
overall shutdown. -/
theorem c7_stop_processes_idempotent (ps : List ProcHandle) :
    termNamesOf (stop_processes ps ++ stop_processes ps)
        = ps.map (fun h => h.name) ++ ps.map (fun h => h.name)
    ∧ killNamesOf (stop_processes ps ++ stop_processes ps)
        = ps.map (fun h => h.name) ++ ps.map (fun h => h.name)
    ∧ swallowTermNamesOf (stop_processes ps ++ stop_processes ps)
        = (ps.filter (fun h => h.beh.termErr)).map (fun h => h.name)
          ++ (ps.filter (fun h => h.beh.termErr)).map (fun h => h.name)
    ∧ nonShutdownEvents (stop_processes ps ++ stop_processes ps) = [] := by
  refine ⟨?_, ?_, ?_, ?_⟩
  · simp [termNamesOf_append, termNamesOf_stop_processes]
  · simp [killNamesOf_append, killNamesOf_stop_processes]
  · simp [swallowTermNamesOf_append, swallowTermNamesOf_stop_processes]
  · simp [nonShutdownEvents_append, nonShutdownEvents_stop_processes]

/-! ### Facts about the service-check pass -/

theorem pollServices_zero (l : List ProcHandle) : (pollServices 0 l).2 = none := by
  induction l with
  | nil => rfl
  | cons h rest ih => simp [pollServices, poll_zero, ih]

theorem pollServices_snd_one_le {t : Nat} {l : List ProcHandle} {nc : String × Int}
    (h : (pollServices t l).2 = some nc) : 1 ≤ t := by
  induction l with
  | nil => simp [pollServices] at h
  | cons h0 rest ih =>
    cases hp : ProcBeh.poll h0.beh t with
    | some c => exact poll_some_one_le hp
    | none =>
      simp only [pollServices, hp] at h
      exact ih h

theorem pollServices_split {t : Nat} {l : List ProcHandle} {nc : String × Int}
    (h : (pollServices t l).2 = some nc) :
    ∃ pre h0 post, l = pre ++ h0 :: post
      ∧ h0.name = nc.1 ∧ ProcBeh.poll h0.beh t = some nc.2
      ∧ ∀ g ∈ pre, ProcBeh.poll g.beh t = none := by
  induction l with
  | nil => simp [pollServices] at h
  | cons h0 rest ih =>
    cases hp : ProcBeh.poll h0.beh t with
    | some c =>
      simp only [pollServices, hp] at h
      obtain ⟨a, b⟩ := nc
      simp at h
      refine ⟨[], h0, rest, rfl, h.1, ?_, by simp⟩
      rw [hp, h.2]
    | none =>
      simp only [pollServices, hp] at h
      obtain ⟨pre, g0, post, hl, hn, hpoll, hpre⟩ := ih h
      refine ⟨h0 :: pre, g0, post, by rw [hl]; rfl, hn, hpoll, ?_⟩
      intro g hg
      rcases List.mem_cons.mp hg with rfl | hg2
      · exact hp
      · exact hpre g hg2

theorem pollServices_no_spawn (t : Nat) (l : List ProcHandle) (n s : String) :
    Event.spawnEv n s ∉ (pollServices t l).1 := by
  induction l with
  | nil => simp [pollServices]
  | cons h rest ih =>
    cases hp : ProcBeh.poll h.beh t <;> simp [pollServices, hp, ih]

/-! ### The monitoring loop -/

/-- If the first tick at which any service polls as exited is `T` and some
client is still pending when iteration `T` begins, the loop run from any
earlier iteration returns `serviceFailed` for the first exited service. -/
theorem monitor_service_fail_reach (services : List ProcHandle) (intr : Option Nat)
    {T : Nat} {n : String} {c : Int}
    (hdead : (pollServices T services).2 = some (n, c))
    (hbefore : ∀ t2, t2 < T → (pollServices t2 services).2 = none)
    (hintr : ∀ t2, t2 ≤ T → intr ≠ some t2) :
    ∀ fuel t remaining, 1 ≤ t → t ≤ T → T - t < fuel →
      (∃ q ∈ remaining, (ProcBeh.poll q.beh (T - 1)).isNone) →
      (monitorRun services intr fuel t remaining).2
        = some (Except.ok (CompletionReason.serviceFailed n c)) := by
  intro fuel
  induction fuel with
  | zero => intro t remaining _ _ h3 _; omega
  | succ f ih =>
    intro t remaining h1 hT hf hq
    obtain ⟨q, hqmem, hqnone⟩ := hq
    have hne : remaining.isEmpty = false := by
      cases remaining with
      | nil => simp at hqmem
      | cons a b => rfl
    have hni : ¬ (intr = some t) := hintr t hT
    by_cases ht : t = T
    · subst ht
      simp [monitorRun, hne, hni, hdead]
    · have htlt : t < T := lt_of_le_of_ne hT ht
      have hsvct : (pollServices t services).2 = none := hbefore t htlt
      simp [monitorRun, hne, hni, hsvct]
      apply ih (t + 1)
      · omega
      · omega
      · omega
      · refine ⟨q, List.mem_filter.mpr ⟨hqmem, ?_⟩, hqnone⟩
        have hq2 : ProcBeh.poll q.beh (T - 1) = none :=
          Option.isNone_iff_eq_none.mp hqnone
        have : ProcBeh.poll q.beh t = none := poll_none_of_le (by omega) hq2
        simp [this]

/-- If no service polls as exited through tick `F`, no interrupt arrives
through tick `F`, every pending client polls as exited at tick `F`, and the
pending list was filtered through tick `t - 1`, the loop run from iteration
`t` with enough fuel falls through with `clientsFinished`. -/
theorem monitor_finish_reach (services : List ProcHandle) (intr : Option Nat) (F : Nat)
    (hsvc : ∀ t2, 1 ≤ t2 → t2 ≤ F → (pollServices t2 services).2 = none)
    (hintr : ∀ t2, t2 ≤ F → intr ≠ some t2) :
    ∀ fuel t remaining, 1 ≤ t →
      (∀ q ∈ remaining, (ProcBeh.poll q.beh F).isSome) →
      (∀ q ∈ remaining, (ProcBeh.poll q.beh (t - 1)).isNone) →
      F + 1 ≤ t + fuel →
      (monitorRun services intr fuel t remaining).2
        = some (Except.ok CompletionReason.clientsFinished) := by
  intro fuel
  induction fuel with
  | zero =>
    intro t remaining h1 hS hN harith
    cases remaining with
    | nil => simp [monitorRun]
    | cons q rest =>
      obtain ⟨c, hc⟩ := Option.isSome_iff_exists.mp (hS q (by simp))
      have hqn : ProcBeh.poll q.beh (t - 1) = none :=
        Option.isNone_iff_eq_none.mp (hN q (by simp))
      have hFt : ¬ (F ≤ t - 1) := by
        intro hle
        rw [poll_mono_some hle hc] at hqn
        exact absurd hqn (by simp)
      omega
  | succ f ih =>
    intro t remaining h1 hS hN harith
    cases hrem : remaining with
    | nil => simp [monitorRun]
    | cons q rest =>
      subst hrem
      obtain ⟨c, hc⟩ := Option.isSome_iff_exists.mp (hS q (by simp))
      have hqn : ProcBeh.poll q.beh (t - 1) = none :=
        Option.isNone_iff_eq_none.mp (hN q (by simp))
      have htF : t ≤ F := by
        have hFt : ¬ (F ≤ t - 1) := by
          intro hle
          rw [poll_mono_some hle hc] at hqn
          exact absurd hqn (by simp)
        omega
      have hne : (q :: rest).isEmpty = false := rfl
      have hni : ¬ (intr = some t) := hintr t htF
      have hsvct : (pollServices t services).2 = none := hsvc t h1 htF
      simp [monitorRun, hne, hni, hsvct]
      apply ih (t + 1)
      · omega
      · intro g hg
        exact hS g (List.mem_filter.mp hg).1
      · intro g hg
        have := (List.mem_filter.mp hg).2
        simpa using this
      · omega

/-- Whenever a run of the monitor loop ends with `serviceFailed (n, c)`,
there is a decisive tick `T`: the service pass at `T` reported `(n, c)` and
every earlier pass (within the run) reported nothing. -/
theorem monitor_fail_inv (services : List ProcHandle) (intr : Option Nat)
    {n : String} {c : Int} :
    ∀ fuel t remaining,
      (monitorRun services intr fuel t remaining).2
        = some (Except.ok (CompletionReason.serviceFailed n c)) →
      ∃ T, t ≤ T ∧ (pollServices T services).2 = some (n, c)
        ∧ ∀ t2, t ≤ t2 → t2 < T → (pollServices t2 services).2 = none := by
  intro fuel
  induction fuel with
  | zero =>
    intro t remaining h
    by_cases he : remaining.isEmpty <;> simp [monitorRun, he] at h
  | succ f ih =>
    intro t remaining h
    by_cases he : remaining.isEmpty
    · simp [monitorRun, he] at h
    · have hne : remaining.isEmpty = false := by
        revert he; cases remaining.isEmpty <;> simp
      by_cases hi : intr = some t
      · simp [monitorRun, hne, hi] at h
      · cases hp : (pollServices t services).2 with
        | some nc =>
          simp [monitorRun, hne, hi, hp] at h
          obtain ⟨a, b⟩ := nc
          refine ⟨t, le_rfl, ?_, fun t2 hg hl => absurd hg (by omega)⟩
          rw [hp]
          simp at h
          rw [h.1, h.2]
        | none =>
          simp only [monitorRun, hne, hi, hp] at h
          simp at h
          obtain ⟨T, hT1, hT2, hT3⟩ := ih (t + 1) _ h
          refine ⟨T, by omega, hT2, fun t2 hg hl => ?_⟩
          rcases eq_or_lt_of_le hg with rfl | hlt
          · exact hp
          · exact hT3 t2 (by omega) hl

/-- The monitor loop spawns nothing: no `spawnEv` appears in its trace. -/
theorem monitor_no_spawn (services : List ProcHandle) (intr : Option Nat) :
    ∀ fuel t remaining n s,
      Event.spawnEv n s ∉ (monitorRun services intr fuel t remaining).1 := by
  intro fuel
  induction fuel with
  | zero =>
    intro t remaining n s
    by_cases he : remaining.isEmpty <;> simp [monitorRun, he]
  | succ f ih =>
    intro t remaining n s
    by_cases he : remaining.isEmpty
    · simp [monitorRun, he]
    · have hne : remaining.isEmpty = false := by
        revert he; cases remaining.isEmpty <;> simp
      by_cases hi : intr = some t
      · simp [monitorRun, hne, hi]
      · cases hp : (pollServices t services).2 with
        | some nc =>
          simp [monitorRun, hne, hi, hp]
          exact pollServices_no_spawn t services n s
        | none =>
          simp [monitorRun, hne, hi, hp]
          exact ⟨pollServices_no_spawn t services n s, ih (t + 1) _ n s⟩

theorem le_lastTick {clients : List ProcHandle} {q : ProcHandle} (hq : q ∈ clients)
    {k : Nat} (hk : q.beh.exitAt = some k) : max 1 k ≤ lastTick clients := by
  induction clients with
  | nil => simp at hq
  | cons a rest ih =>
    rcases List.mem_cons.mp hq with rfl | hmem
    · simp only [lastTick, hk, Option.getD_some]
      exact le_max_left _ _
    · simp only [lastTick]
      exact le_trans (ih hmem) (le_max_right _ _)

theorem poll_isSome_lastTick {clients : List ProcHandle} {q : ProcHandle}
    (hq : q ∈ clients) (hs : q.beh.exitAt.isSome) :
    (ProcBeh.poll q.beh (lastTick clients)).isSome := by
  obtain ⟨k, hk⟩ := Option.isSome_iff_exists.mp hs
  have h := le_lastTick hq hk
  simp only [ProcBeh.poll, hk]
  rw [if_pos ⟨by omega, by omega⟩]
  rfl

/-- C1: whenever the monitor loop is running and `T` is the first tick at
which the service pass reports an exited service `(n, c)` (the first such
service in list order, with its code), and at least one client is still
pending when iteration `T` begins (it may well finish at tick `T` itself:
the service check runs first in every iteration, so a service exit observed
in the same iteration as the last client exits still wins), then the run
ends at iteration `T` with `serviceFailed n c` — delivered as the monitor's
return value (`Except.ok`), not as a raised exception. -/
theorem c1_service_failure_precedence (services clients : List ProcHandle)
    (intr : Option Nat) (fuel T : Nat) (n : String) (c : Int)
    (hdead : (pollServices T services).2 = some (n, c))
    (hbefore : ∀ t2, t2 < T → (pollServices t2 services).2 = none)
    (hpending : ∃ q ∈ clients, (ProcBeh.poll q.beh (T - 1)).isNone)
    (hintr : ∀ t2, t2 ≤ T → intr ≠ some t2)
    (hfuel : T ≤ fuel) :
    (wait_for_clients intr fuel clients services).2
      = some (Except.ok (CompletionReason.serviceFailed n c)) := by
  have h1T : 1 ≤ T := pollServices_snd_one_le hdead
  exact monitor_service_fail_reach services intr hdead hbefore hintr fuel 1 clients
    le_rfl h1T (by omega) hpending

theorem c1_witness :
    (wait_for_clients none 2
        [ProcHandle.mk "K1" (ProcBeh.mk (some 2) 0 false false)]
        [ProcHandle.mk "S1" (ProcBeh.mk (some 2) 1 false false)]).2
      = some (Except.ok (CompletionReason.serviceFailed "S1" 1)) :=
  c1_service_failure_precedence
    [ProcHandle.mk "S1" (ProcBeh.mk (some 2) 1 false false)]
    [ProcHandle.mk "K1" (ProcBeh.mk (some 2) 0 false false)]
    none 2 2 "S1" 1
    (by decide) (by decide) (by decide) (by decide) (by decide)

/-- C2: when every client eventually exits and no service is observed exited
(and no interrupt arrives) through the tick at which the last client is
observed, the monitor run returns `clientsFinished`; moreover the pending
set only ever shrinks (a client removed at one tick is still absent at every
later tick — never re-added) and the loop's trace contains no spawn event
(no finished client is ever restarted). -/
theorem c2_clients_finished (services clients : List ProcHandle)
    (intr : Option Nat) (fuel : Nat)
    (hall : ∀ q ∈ clients, q.beh.exitAt.isSome)
    (hsvc : ∀ t2, t2 ≤ lastTick clients → 1 ≤ t2 → (pollServices t2 services).2 = none)
    (hintr : ∀ t2, t2 ≤ lastTick clients → intr ≠ some t2)
    (hfuel : lastTick clients ≤ fuel) :
    (wait_for_clients intr fuel clients services).2
        = some (Except.ok CompletionReason.clientsFinished)
    ∧ (∀ t, remainingAt clients (t + 1) ⊆ remainingAt clients t)
    ∧ (∀ n s, Event.spawnEv n s ∉ (wait_for_clients intr fuel clients services).1) := by
  refine ⟨?_, ?_, ?_⟩
  · exact monitor_finish_reach services intr (lastTick clients)
      (fun t2 h1 h2 => hsvc t2 h2 h1) hintr fuel 1 clients
      le_rfl
      (fun q hq => poll_isSome_lastTick hq (hall q hq))
      (fun q hq => by simp [poll_zero])
      (by omega)
  · intro t q hq
    simp only [remainingAt] at hq ⊢
    have hmf := List.mem_filter.mp hq
    refine List.mem_filter.mpr ⟨hmf.1, ?_⟩
    have h2 : ProcBeh.poll q.beh (t + 1) = none :=
      Option.isNone_iff_eq_none.mp hmf.2
    simp [poll_none_of_le (Nat.le_succ t) h2]
  · intro n s
    exact monitor_no_spawn services intr fuel 1 clients n s

theorem c2_witness :
    (wait_for_clients none 1
        [ProcHandle.mk "K1" (ProcBeh.mk (some 1) 0 false false)]
        [ProcHandle.mk "S1" (ProcBeh.mk none 0 false false)]).2
      = some (Except.ok CompletionReason.clientsFinished) :=
  (c2_clients_finished
    [ProcHandle.mk "S1" (ProcBeh.mk none 0 false false)]
    [ProcHandle.mk "K1" (ProcBeh.mk (some 1) 0 false false)]
    none 1 (by decide) (by decide) (by decide) (by decide)).1

/-- C9: with an empty client list, `wait_for_clients` returns
`clientsFinished` at once — for any fuel (including 0: no loop iteration,
hence no sleep is performed) and any service list (no service is polled:
the trace is empty), even when some service has already exited. -/
theorem c9_empty_clients_immediate (services : List ProcHandle)
    (intr : Option Nat) (fuel : Nat) :
    wait_for_clients intr fuel [] services
      = ([], some (Except.ok CompletionReason.clientsFinished)) := by
  cases fuel <;> rfl

/-- C10: when a monitor run reports `serviceFailed n c`, there is a decisive
tick `T` (the first tick, within the run, at which the service pass reports
anything): the services list splits as `pre ++ reported :: post` where the
reported service is the FIRST of the list polling as exited at `T` — every
service before it in list order still polls `none` at `T` — regardless of
how the actual exit moments within the poll interval are ordered.  The
outcome is thereby a deterministic function of the per-handle exit statuses
observed at each poll. -/
theorem c10_reported_service_first_in_list (services clients : List ProcHandle)
    (intr : Option Nat) (fuel : Nat) (n : String) (c : Int)
    (h : (wait_for_clients intr fuel clients services).2
      = some (Except.ok (CompletionReason.serviceFailed n c))) :
    ∃ T pre h0 post, 1 ≤ T
      ∧ services = pre ++ h0 :: post
      ∧ h0.name = n ∧ ProcBeh.poll h0.beh T = some c
      ∧ (∀ g ∈ pre, ProcBeh.poll g.beh T = none)
      ∧ (∀ t2, t2 < T → (pollServices t2 services).2 = none) := by
  obtain ⟨T, hT1, hT2, hT3⟩ := monitor_fail_inv services intr fuel 1 clients h
  obtain ⟨pre, h0, post, hsplit, hname, hpoll, hpre⟩ := pollServices_split hT2
  refine ⟨T, pre, h0, post, hT1, hsplit, hname, hpoll, hpre, ?_⟩
  intro t2 hlt
  rcases Nat.lt_or_ge t2 1 with h1 | h1
  · have ht0 : t2 = 0 := by omega
    rw [ht0]
    exact pollServices_zero services
  · exact hT3 t2 h1 hlt

theorem c10_witness :
    ∃ T pre h0 post, 1 ≤ T
      ∧ [ProcHandle.mk "A" (ProcBeh.mk (some 1) 5 false false),
         ProcHandle.mk "B" (ProcBeh.mk (some 1) 7 false false)] = pre ++ h0 :: post
      ∧ h0.name = "A" ∧ ProcBeh.poll h0.beh T = some 5
      ∧ (∀ g ∈ pre, ProcBeh.poll g.beh T = none)
      ∧ (∀ t2, t2 < T →
          (pollServices t2
            [ProcHandle.mk "A" (ProcBeh.mk (some 1) 5 false false),
             ProcHandle.mk "B" (ProcBeh.mk (some 1) 7 false false)]).2 = none) :=
  c10_reported_service_first_in_list
    [ProcHandle.mk "A" (ProcBeh.mk (some 1) 5 false false),
     ProcHandle.mk "B" (ProcBeh.mk (some 1) 7 false false)]
    [ProcHandle.mk "K1" (ProcBeh.mk none 0 false false)]
    none 1 "A" 5 rfl

/-! ### Group startup -/

theorem start_group_ok (scn : Scenario) :
    ∀ (group : List (String × String)) (i : Nat),
      (∀ p ∈ group, ∃ b, scn.spawn p.1 p.2 = Except.ok b) →
      start_group scn none group i
        = (startEvents group, Except.ok (startedHandles scn group)) := by
  intro group
  induction group with
  | nil => intro i _; rfl
  | cons p rest ih =>
    intro i hok
    obtain ⟨b, hb⟩ := hok p (by simp)
    have hrest := ih (i + 1) (fun q hq => hok q (by simp [hq]))
    simp [start_group, start_node, hb, hrest, startEvents, startedHandles]

theorem startedHandles_ok (scn : Scenario) :
    ∀ group : List (String × String),
      (∀ p ∈ group, ∃ b, scn.spawn p.1 p.2 = Except.ok b) →
      (startedHandles scn group).map (fun h => h.name) = group.map (fun p => p.1)
      ∧ (startedHandles scn group).length = group.length := by
  intro group
  induction group with
  | nil => intro _; exact ⟨rfl, rfl⟩
  | cons p rest ih =>
    intro hok
    obtain ⟨b, hb⟩ := hok p (by simp)
    obtain ⟨h1, h2⟩ := ih (fun q hq => hok q (by simp [hq]))
    simp [startedHandles, hb, h1, h2]

/-- C6: when no spawn in the group fails (and no interrupt arrives during
the group start), `start_group` returns exactly one handle per node, in
input order, each bearing its node's name and the behaviour its spawned
process has; its trace is spawn-then-0.5 s-sleep for each node in order. -/
theorem c6_start_group_one_handle_per_node (scn : Scenario)
    (group : List (String × String)) (i : Nat)
    (hok : ∀ p ∈ group, ∃ b, scn.spawn p.1 p.2 = Except.ok b) :
    (start_group scn none group i).2 = Except.ok (startedHandles scn group)
    ∧ (startedHandles scn group).map (fun h => h.name) = group.map (fun p => p.1)
    ∧ (startedHandles scn group).length = group.length
    ∧ (start_group scn none group i).1 = startEvents group := by
  have h := start_group_ok scn group i hok
  obtain ⟨h1, h2⟩ := startedHandles_ok scn group hok
  exact ⟨by rw [h], h1, h2, by rw [h]⟩

theorem c6_witness :
    (start_group
        (Scenario.mk (fun _ _ => Except.ok (ProcBeh.mk none 0 false false))
          InterruptPoint.noIntr) none CLIENT_NODES 0).2
      = Except.ok (startedHandles
          (Scenario.mk (fun _ _ => Except.ok (ProcBeh.mk none 0 false false))
            InterruptPoint.noIntr) CLIENT_NODES)
    ∧ (startedHandles
          (Scenario.mk (fun _ _ => Except.ok (ProcBeh.mk none 0 false false))
            InterruptPoint.noIntr) CLIENT_NODES).map (fun h => h.name)
        = CLIENT_NODES.map (fun p => p.1)
    ∧ (startedHandles
          (Scenario.mk (fun _ _ => Except.ok (ProcBeh.mk none 0 false false))
            InterruptPoint.noIntr) CLIENT_NODES).length = CLIENT_NODES.length
    ∧ (start_group
        (Scenario.mk (fun _ _ => Except.ok (ProcBeh.mk none 0 false false))
          InterruptPoint.noIntr) none CLIENT_NODES 0).1 = startEvents CLIENT_NODES :=
  c6_start_group_one_handle_per_node
    (Scenario.mk (fun _ _ => Except.ok (ProcBeh.mk none 0 false false))
      InterruptPoint.noIntr)
    CLIENT_NODES 0
    (fun _ _ => ⟨ProcBeh.mk none 0 false false, rfl⟩)

/-- A spawn failure at node `p` aborts the group start there: the nodes
before it were started (their spawn/sleep events stand), nothing after `p`
is attempted, the exception propagates, and the partial handle list is
discarded with it. -/
theorem start_group_fail (scn : Scenario) {p : String × String} {e : String}
    (hp : scn.spawn p.1 p.2 = Except.error e) :
    ∀ (pre post : List (String × String)) (i : Nat),
      (∀ q ∈ pre, ∃ b, scn.spawn q.1 q.2 = Except.ok b) →
      start_group scn none (pre ++ p :: post) i
        = (startEvents pre ++ [Event.spawnEv p.1 p.2],
           Except.error (RunExc.spawnFailure p.1 e)) := by
  intro pre
  induction pre with
  | nil =>
    intro post i _
    simp [start_group, start_node, hp, startEvents]
  | cons q rest ih =>
    intro post i hok
    obtain ⟨b, hb⟩ := hok q (by simp)
    have hrest := ih post (i + 1) (fun x hx => hok x (by simp [hx]))
    simp [start_group, start_node, hb, hrest, startEvents]

theorem termNamesOf_startEvents (group : List (String × String)) :
    termNamesOf (startEvents group) = [] := by
  induction group with
  | nil => rfl
  | cons _p rest ih => simp [startEvents, termNamesOf, List.filterMap_cons] at ih ⊢; exact ih

theorem killNamesOf_startEvents (group : List (String × String)) :
    killNamesOf (startEvents group) = [] := by
  induction group with
  | nil => rfl
  | cons _p rest ih => simp [startEvents, killNamesOf, List.filterMap_cons] at ih ⊢; exact ih

/-- C4 counterexample: spawn of the second service node `D` fails while `Q1`
was already started.  The run's whole trace is then the two spawn attempts,
the inter-start sleep and the two (empty-list) shutdown passes: `Q1` was
started (its spawn event is in the trace) but no terminate and no kill
request for `Q1` is ever issued — the `finally` block sees no bound
`service_procs` local, so the shutdown phase runs over `[]`, not over the
handles started earlier in the failing group; they are leaked. -/
theorem c4_counterexample :
    (RunSystem.main
        (Scenario.mk
          (fun nm _ => if nm = "D" then Except.error "no such file"
                       else Except.ok (ProcBeh.mk none 0 false false))
          InterruptPoint.noIntr) 0).map (fun r => r.trace)
      = some [Event.spawnEv "Q1" "q1_node.py", Event.sleep 500,
              Event.spawnEv "D" "d_node.py", Event.sleep 2000, Event.sleep 2000]
    ∧ Event.spawnEv "Q1" "q1_node.py"
        ∈ [Event.spawnEv "Q1" "q1_node.py", Event.sleep 500,
           Event.spawnEv "D" "d_node.py", Event.sleep 2000, Event.sleep 2000]
    ∧ Event.term "Q1"
        ∉ [Event.spawnEv "Q1" "q1_node.py", Event.sleep 500,
           Event.spawnEv "D" "d_node.py", Event.sleep 2000, Event.sleep 2000]
    ∧ Event.kill "Q1"
        ∉ [Event.spawnEv "Q1" "q1_node.py", Event.sleep 500,
           Event.spawnEv "D" "d_node.py", Event.sleep 2000, Event.sleep 2000] := by
  decide

/-- C4 (amended): if a spawn failure hits the service group at node `p`
(everything before `p` in the group spawned fine, no interrupt), the failure
propagates out of the group-start call (it escapes `main` as the run's
outcome), the remaining startup of that group is aborted (the trace holds
exactly the starts up to and including the failed attempt), and the shutdown
phase still runs — but over the lists bound at the point of failure, which
here are both empty: the handles started earlier in the failing group are
NOT passed to shutdown (no terminate or kill request occurs in the whole
run); they are left running as leaked processes. -/
theorem c4_amended_spawnfail_aborts_and_leaks (scn : Scenario) (fuel : Nat)
    (pre post : List (String × String)) (p : String × String) (e : String)
    (hintr : scn.intr = InterruptPoint.noIntr)
    (hsplit : NODES = pre ++ p :: post)
    (hok : ∀ q ∈ pre, ∃ b, scn.spawn q.1 q.2 = Except.ok b)
    (hfail : scn.spawn p.1 p.2 = Except.error e) :
    RunSystem.main scn fuel
      = some (MainResult.mk
          (startEvents pre ++ [Event.spawnEv p.1 p.2]
            ++ stop_processes [] ++ stop_processes [])
          (some (p.1, e)) [] [])
    ∧ termNamesOf (startEvents pre ++ [Event.spawnEv p.1 p.2]
          ++ stop_processes [] ++ stop_processes []) = []
    ∧ killNamesOf (startEvents pre ++ [Event.spawnEv p.1 p.2]
          ++ stop_processes [] ++ stop_processes []) = [] := by
  have hsg := start_group_fail scn hfail pre post 0 hok
  refine ⟨?_, ?_, ?_⟩
  · rw [RunSystem.main, hintr, hsplit]
    simp only [svcIntr]
    rw [hsg]
  · simp only [termNamesOf_append, termNamesOf_startEvents, termNamesOf_stop_processes]
    rfl
  · simp only [killNamesOf_append, killNamesOf_startEvents, killNamesOf_stop_processes]
    rfl

theorem c4_witness :
    RunSystem.main
        (Scenario.mk
          (fun nm _ => if nm = "D" then Except.error "no such file"
                       else Except.ok (ProcBeh.mk none 0 false false))
          InterruptPoint.noIntr) 0
      = some (MainResult.mk
          (startEvents [("Q1", "q1_node.py")] ++ [Event.spawnEv "D" "d_node.py"]
            ++ stop_processes [] ++ stop_processes [])
          (some ("D", "no such file")) [] [])
    ∧ termNamesOf (startEvents [("Q1", "q1_node.py")] ++ [Event.spawnEv "D" "d_node.py"]
          ++ stop_processes [] ++ stop_processes []) = []
    ∧ killNamesOf (startEvents [("Q1", "q1_node.py")] ++ [Event.spawnEv "D" "d_node.py"]
          ++ stop_processes [] ++ stop_processes []) = [] := by
  have h := c4_amended_spawnfail_aborts_and_leaks
    (Scenario.mk
      (fun nm _ => if nm = "D" then Except.error "no such file"
                   else Except.ok (ProcBeh.mk none 0 false false))
      InterruptPoint.noIntr) 0
    [("Q1", "q1_node.py")]
    [("P11", "p1x_service.py"), ("P12", "p1x_service.py"), ("P13", "p1x_service.py"),
     ("Q21", "q2x_node.py"), ("Q22", "q2x_node.py"), ("Q23", "q2x_node.py"),
     ("P21", "p2x_service.py"), ("P22", "p2x_service.py"), ("P23", "p2x_service.py")]
    ("D", "d_node.py") "no such file"
    rfl rfl
    (by
      intro q hq
      rw [List.mem_singleton] at hq
      subst hq
      exact ⟨ProcBeh.mk none 0 false false, rfl⟩)
    rfl
  exact h

/-! ### The main sequence -/

/-- Every completed run of `main` ends with the `finally` block's shutdown:
the trace is some prefix followed by the `stop_processes` trace of the
client list it stopped, followed by the `stop_processes` trace of the
service list it stopped — in that order, on every path. -/
theorem main_shutdown_shape (scn : Scenario) (fuel : Nat) (r : MainResult)
    (h : RunSystem.main scn fuel = some r) :
    ∃ ev, r.trace = ev ++ stop_processes r.clientProcs
      ++ stop_processes r.serviceProcs := by
  unfold RunSystem.main at h
  split at h
  · injection h with h2; subst h2; exact ⟨_, rfl⟩
  · injection h with h2; subst h2; exact ⟨_, rfl⟩
  · split at h
    · injection h with h2; subst h2; exact ⟨_, rfl⟩
    · split at h
      · injection h with h2; subst h2; exact ⟨_, rfl⟩
      · injection h with h2; subst h2; exact ⟨_, rfl⟩
      · split at h
        · exact absurd h (by simp)
        · injection h with h2; subst h2; exact ⟨_, rfl⟩

/-- C3: on every completed path of `main` — normal completion
(`clientsFinished`), `serviceFailed`, a spawn failure during either start
phase, or an interrupt at any of the modelled points — the two-phase
shutdown is invoked unconditionally, first on the client list and then on
the service list (the lists the `finally` block computes: `[]` for a list
whose local was never bound): the run's trace always ends with
`stop_processes` of the client list followed by `stop_processes` of the
service list. -/
theorem c3_shutdown_on_every_path (scn : Scenario) (fuel : Nat) (r : MainResult)
    (h : RunSystem.main scn fuel = some r) :
    ∃ ev, r.trace = ev ++ stop_processes r.clientProcs
      ++ stop_processes r.serviceProcs :=
  main_shutdown_shape scn fuel r h

theorem c3_witness :
    ∃ ev, (MainResult.mk
        ([Event.spawnEv "Q1" "q1_node.py"] ++ stop_processes [] ++ stop_processes [])
        (some ("Q1", "boom")) [] []).trace
      = ev ++ stop_processes (MainResult.mk
          ([Event.spawnEv "Q1" "q1_node.py"] ++ stop_processes [] ++ stop_processes [])
          (some ("Q1", "boom")) [] []).clientProcs
        ++ stop_processes (MainResult.mk
          ([Event.spawnEv "Q1" "q1_node.py"] ++ stop_processes [] ++ stop_processes [])
          (some ("Q1", "boom")) [] []).serviceProcs :=
  c3_shutdown_on_every_path
    (Scenario.mk (fun _ _ => Except.error "boom") InterruptPoint.noIntr) 0
    (MainResult.mk
      ([Event.spawnEv "Q1" "q1_node.py"] ++ stop_processes [] ++ stop_processes [])
      (some ("Q1", "boom")) [] [])
    rfl

/-- No run of `start_group` over a group whose spawns all succeed can end
with a spawn failure (it ends ok, or with the interrupt). -/
theorem start_group_no_spawnfail (scn : Scenario) (ia : Option Nat) :
    ∀ (group : List (String × String)) (i : Nat),
      (∀ p ∈ group, ∃ b, scn.spawn p.1 p.2 = Except.ok b) →
      ∀ n e, (start_group scn ia group i).2 ≠ Except.error (RunExc.spawnFailure n e) := by
  intro group
  induction group with
  | nil => intro i _ n e h; simp [start_group] at h
  | cons p rest ih =>
    intro i hok n e h
    obtain ⟨b, hb⟩ := hok p (by simp)
    by_cases hia : ia = some i
    · simp [start_group, start_node, hb, hia] at h
    · cases hr : (start_group scn ia rest (i + 1)).2 with
      | ok hs => simp [start_group, start_node, hb, hia, hr] at h
      | error ex =>
        simp [start_group, start_node, hb, hia, hr] at h
        exact ih (i + 1) (fun q hq => hok q (by simp [hq])) n e (by rw [hr, h])

/-- C8: (1) in any run whose spawns all succeed — in particular whatever
interrupt point the scenario holds, at any modelled phase — the interrupt is
caught and converted into the orderly shutdown path: `main` completes with
no escaping exception, the supervisor's own exit status is 0, and the trace
still ends with the full two-list shutdown; (2) the exit status is non-zero
only when an uncaught exception (a spawn failure) escapes the whole
sequence. -/
theorem c8_interrupt_converted_exit_zero :
    (∀ (scn : Scenario) (fuel : Nat) (r : MainResult),
        (∀ nm sc, ∃ b, scn.spawn nm sc = Except.ok b) →
        RunSystem.main scn fuel = some r →
        r.outcome = none ∧ pyExit r = 0
          ∧ ∃ ev, r.trace = ev ++ stop_processes r.clientProcs
              ++ stop_processes r.serviceProcs)
    ∧ (∀ (scn : Scenario) (fuel : Nat) (r : MainResult),
        RunSystem.main scn fuel = some r → pyExit r ≠ 0 →
        ∃ n e, r.outcome = some (n, e)) := by
  constructor
  · intro scn fuel r hok h
    have hshape := main_shutdown_shape scn fuel r h
    unfold RunSystem.main at h
    split at h
    · rename_i n e heq
      exact absurd heq
        (start_group_no_spawnfail scn _ NODES 0 (fun p _ => hok p.1 p.2) n e)
    · injection h with h2; subst h2; exact ⟨rfl, rfl, hshape⟩
    · split at h
      · injection h with h2; subst h2; exact ⟨rfl, rfl, hshape⟩
      · split at h
        · rename_i n e heq
          exact absurd heq
            (start_group_no_spawnfail scn _ CLIENT_NODES 0 (fun p _ => hok p.1 p.2) n e)
        · injection h with h2; subst h2; exact ⟨rfl, rfl, hshape⟩
        · split at h
          · exact absurd h (by simp)
          · injection h with h2; subst h2; exact ⟨rfl, rfl, hshape⟩
  · intro scn fuel r _ hne
    cases ho : r.outcome with
    | none => simp [pyExit, ho] at hne
    | some pr => exact ⟨pr.1, pr.2, rfl⟩

theorem c8_witness :
    (MainResult.mk
        ([Event.spawnEv "Q1" "q1_node.py", Event.sleep 500]
          ++ stop_processes [] ++ stop_processes [])
        none [] []).outcome = none
    ∧ pyExit (MainResult.mk
        ([Event.spawnEv "Q1" "q1_node.py", Event.sleep 500]
          ++ stop_processes [] ++ stop_processes [])
        none [] []) = 0
    ∧ ∃ ev, (MainResult.mk
        ([Event.spawnEv "Q1" "q1_node.py", Event.sleep 500]
          ++ stop_processes [] ++ stop_processes [])
        none [] []).trace
      = ev ++ stop_processes (MainResult.mk
            ([Event.spawnEv "Q1" "q1_node.py", Event.sleep 500]
              ++ stop_processes [] ++ stop_processes [])
            none [] []).clientProcs
        ++ stop_processes (MainResult.mk
            ([Event.spawnEv "Q1" "q1_node.py", Event.sleep 500]
              ++ stop_processes [] ++ stop_processes [])
            none [] []).serviceProcs :=
  c8_interrupt_converted_exit_zero.1
    (Scenario.mk (fun _ _ => Except.ok (ProcBeh.mk none 0 false false))
      (InterruptPoint.duringServiceStart 0)) 0
    (MainResult.mk
      ([Event.spawnEv "Q1" "q1_node.py", Event.sleep 500]
        ++ stop_processes [] ++ stop_processes [])
      none [] [])
    (fun _ _ => ⟨ProcBeh.mk none 0 false false, rfl⟩)
    rfl
